import Mathlib

/-!
Verification development for the rkndex repository (usher2/rkndex).

Shallow embedding of three Python modules:
  * src/rkndex/gitarlog.py   — class GitarLog: sqlite cache of the rkn.git log
  * src/rkndex/donor_zavod.py — class DonorZavod: directory-listing donor
  * src/rkndex/donor_che.py   — class DonorChe: conditional-HTTP donor

Database tables are modelled as Lean lists of records, sqlite rows as
structures, byte strings (sqlite BLOBs / Python bytes) as lists of naturals,
and the external git subprocess / HTTP responses as explicit environment
values.  Fallible operations return Except / Option.  Python asserts become
theorem hypotheses.
-/

/-- Bytes models a Python `bytes` value / sqlite BLOB: a list of byte values. -/
abbrev Bytes := List Nat

namespace GitarLog

/-- LogRecord models one row of the `log` table created in
`GitarLog.create_table` (gitarlog.py lines 85-101).  Columns declared
without NOT NULL are Options. -/
structure LogRecord where
  update_time : Int
  update_time_urgently : Option Int
  signing_time : Int
  xml_mtime : Option Int
  sig_mtime : Option Int
  xml_md5 : Bytes
  sig_md5 : Bytes
  xml_sha1 : Bytes
  sig_sha1 : Bytes
  xml_git : Bytes
  sig_git : Bytes
  xml_sha256 : Bytes
  sig_sha256 : Bytes
  xml_sha512 : Bytes
  sig_sha512 : Bytes
deriving DecidableEq, Repr

/-- GitarState models the sqlite database owned by a GitarLog instance:
the `log` and `log100` tables (rows in insertion order) and the
single-row pointer tables `head` and `main100` (None when empty). -/
structure GitarState where
  log : List LogRecord
  log100 : List Int
  head : Option Bytes
  main100 : Option Bytes
deriving DecidableEq, Repr

/-- needs_xml_sha256 models gitarlog.py lines 41-44:
`SELECT COUNT(*) FROM log WHERE xml_sha256 = ?` compared with 0.
The Python `assert len(xml_binsha256) == 32` becomes a theorem hypothesis. -/
def needs_xml_sha256 (st : GitarState) (xml_binsha256 : Bytes) : Bool :=
  (st.log.countP (fun r => r.xml_sha256 == xml_binsha256)) == 0

/-- insertLog models `INSERT INTO log VALUES (...)` (gitarlog.py line 170):
the new row is appended to the table. -/
def insertLog (st : GitarState) (r : LogRecord) : GitarState :=
  { st with log := st.log ++ [r] }

/-- max_update_time models gitarlog.py lines 38-39:
`SELECT COALESCE(MAX(update_time), 0) FROM log`. -/
def max_update_time (st : GitarState) : Int :=
  (st.log.map (fun r => r.update_time)).foldl max 0

/-- splitAux splits a list of characters on runs of spaces, dropping empty
pieces, as Python `str.split(None)` does on space-separated text (git log
body lines; whitespace other than the space character does not occur
in the tformat output consumed by insert_up_to). -/
def splitAux : List Char → List Char → List (List Char)
  | [], [] => []
  | [], acc => [acc.reverse]
  | c :: rest, acc =>
    if c = ' ' then
      if acc = [] then splitAux rest []
      else acc.reverse :: splitAux rest []
    else splitAux rest (c :: acc)

/-- tokenize breaks one git-log body line into whitespace-separated tokens. -/
def tokenize (line : String) : List (List Char) := splitAux line.data []

/-- joinTokens rebuilds the third component of Python
`line.strip().split(None, 2)`: the rest of the line after the first two
tokens, with single spaces between the remaining tokens. -/
def joinTokens : List (List Char) → List Char
  | [] => []
  | [t] => t
  | t :: ts => t ++ ' ' :: joinTokens ts

/-- split3 models `a, b, c = line.decode('ascii').strip().split(None, 2)`
(gitarlog.py line 159); None when the line has fewer than three parts
(Python raises ValueError, caught and wrapped at line 180). -/
def split3 (line : String) : Option (List Char × List Char × List Char) :=
  match tokenize line with
  | a :: b :: c :: rest => some (a, b, joinTokens (c :: rest))
  | _ => none

/-- digitVal gives the value of a decimal digit character, else None. -/
def digitVal (c : Char) : Option Nat :=
  if '0' ≤ c ∧ c ≤ '9' then some (c.toNat - 48) else none

/-- digitsToNat folds a nonempty run of decimal digits into a Nat. -/
def digitsToNat : List Char → Nat → Option Nat
  | [], acc => some acc
  | c :: cs, acc =>
    match digitVal c with
    | some d => digitsToNat cs (acc * 10 + d)
    | none => none

/-- intParse models Python `int(b)` on a whitespace-free token:
an optional sign followed by at least one decimal digit. -/
def intParse : List Char → Option Int
  | [] => none
  | '-' :: cs =>
    if cs = [] then none else (digitsToNat cs 0).map (fun n => -(n : Int))
  | '+' :: cs =>
    if cs = [] then none else (digitsToNat cs 0).map (fun n => (n : Int))
  | cs => (digitsToNat cs 0).map (fun n => (n : Int))

/-- hexDigitVal gives the value of a hexadecimal digit character, else None. -/
def hexDigitVal (c : Char) : Option Nat :=
  if '0' ≤ c ∧ c ≤ '9' then some (c.toNat - 48)
  else if 'a' ≤ c ∧ c ≤ 'f' then some (c.toNat - 87)
  else if 'A' ≤ c ∧ c ≤ 'F' then some (c.toNat - 55)
  else none

/-- hexDecode models `binascii.unhexlify(b)` (gitarlog.py line 166):
an even-length hex string decodes to bytes, anything else fails. -/
def hexDecode : List Char → Option Bytes
  | [] => some []
  | [_] => none
  | a :: b :: rest =>
    match hexDigitVal a, hexDigitVal b, hexDecode rest with
    | some hi, some lo, some tl => some ((hi * 16 + lo) :: tl)
    | _, _, _ => none

/-- TimeField enumerates the values of `times_map` (gitarlog.py 139-145). -/
inductive TimeField
  | update_time | update_time_urgently | signing_time | xml_mtime | sig_mtime
deriving DecidableEq, Repr

/-- timesMap models the `times_map` dict lookup keyed by the third split
component `c` (gitarlog.py lines 139-145, 160). -/
def timesMap (c : List Char) : Option TimeField :=
  if c = "updateTime".data then some .update_time
  else if c = "updateTimeUrgently".data then some .update_time_urgently
  else if c = "signingTime".data then some .signing_time
  else if c = "dump.xml mtime".data then some .xml_mtime
  else if c = "dump.xml.sig mtime".data then some .sig_mtime
  else none

/-- HashAlgo enumerates the recognized first tokens of digest lines
(gitarlog.py line 165). -/
inductive HashAlgo
  | md5 | sha1 | git | sha256 | sha512
deriving DecidableEq, Repr

/-- algoOf models `a in ('MD5', 'SHA1', 'GIT', 'SHA256', 'SHA512')`. -/
def algoOf (a : List Char) : Option HashAlgo :=
  if a = "MD5".data then some .md5
  else if a = "SHA1".data then some .sha1
  else if a = "GIT".data then some .git
  else if a = "SHA256".data then some .sha256
  else if a = "SHA512".data then some .sha512
  else none

/-- FileKind enumerates the values of `fname_map` (gitarlog.py 146-149). -/
inductive FileKind
  | xml | sig
deriving DecidableEq, Repr

/-- fnameMap models the `fname_map` dict lookup (KeyError when the third
component names neither file, caught and wrapped at line 180). -/
def fnameMap (c : List Char) : Option FileKind :=
  if c = "dump.xml".data then some .xml
  else if c = "dump.xml.sig".data then some .sig
  else none

/-- DraftRow models the accumulator `row = dict.fromkeys(row_keys)`
(gitarlog.py line 153): each of the fifteen columns is either unset or
set; Python stores None both for "unset" and for "set to the RKN_EPOCH
sentinel", so a single Option per field is the exact semantics. -/
structure DraftRow where
  update_time : Option Int := none
  update_time_urgently : Option Int := none
  signing_time : Option Int := none
  xml_mtime : Option Int := none
  sig_mtime : Option Int := none
  xml_md5 : Option Bytes := none
  sig_md5 : Option Bytes := none
  xml_sha1 : Option Bytes := none
  sig_sha1 : Option Bytes := none
  xml_git : Option Bytes := none
  sig_git : Option Bytes := none
  xml_sha256 : Option Bytes := none
  sig_sha256 : Option Bytes := none
  xml_sha512 : Option Bytes := none
  sig_sha512 : Option Bytes := none
deriving DecidableEq, Repr

/-- emptyRow is `dict.fromkeys(row_keys)`: every field None. -/
def emptyRow : DraftRow := {}

/-- setTime models `row[times_map[c]] = v` (gitarlog.py line 164). -/
def setTime (row : DraftRow) : TimeField → Option Int → DraftRow
  | .update_time, v => { row with update_time := v }
  | .update_time_urgently, v => { row with update_time_urgently := v }
  | .signing_time, v => { row with signing_time := v }
  | .xml_mtime, v => { row with xml_mtime := v }
  | .sig_mtime, v => { row with sig_mtime := v }

/-- setDigest models `row[format(fname_map[c], a.lower())] = v`
(gitarlog.py line 167). -/
def setDigest (row : DraftRow) : FileKind → HashAlgo → Bytes → DraftRow
  | .xml, .md5, v => { row with xml_md5 := some v }
  | .xml, .sha1, v => { row with xml_sha1 := some v }
  | .xml, .git, v => { row with xml_git := some v }
  | .xml, .sha256, v => { row with xml_sha256 := some v }
  | .xml, .sha512, v => { row with xml_sha512 := some v }
  | .sig, .md5, v => { row with sig_md5 := some v }
  | .sig, .sha1, v => { row with sig_sha1 := some v }
  | .sig, .git, v => { row with sig_git := some v }
  | .sig, .sha256, v => { row with sig_sha256 := some v }
  | .sig, .sha512, v => { row with sig_sha512 := some v }

/-- rowToRecord models the INSERT at gitarlog.py lines 170-175 together
with the NOT NULL constraints of the `log` schema (lines 85-101): a draft
row missing any required column cannot be inserted (sqlite raises
IntegrityError, caught and wrapped at line 180). -/
def rowToRecord (row : DraftRow) : Option LogRecord :=
  match row.update_time, row.signing_time, row.xml_md5, row.sig_md5,
        row.xml_sha1, row.sig_sha1, row.xml_git, row.sig_git,
        row.xml_sha256, row.sig_sha256, row.xml_sha512, row.sig_sha512 with
  | some ut, some sg, some xmd5, some smd5, some xsha1, some ssha1,
    some xgit, some sgit, some xsha256, some ssha256, some xsha512,
    some ssha512 =>
    some ⟨ut, row.update_time_urgently, sg, row.xml_mtime, row.sig_mtime,
          xmd5, smd5, xsha1, ssha1, xgit, sgit,
          xsha256, ssha256, xsha512, ssha512⟩
  | _, _, _, _, _, _, _, _, _, _, _, _ => none

/-- SyncErr is the RuntimeError raised by a failed sync: `badLine` is
`RuntimeError('Bad line in git log', line, row, exc)` (gitarlog.py line
180), carrying the offending line and the accumulated partial record;
`badInt` is the uncaught ValueError from `int(...)` in insert_100_up_to
(line 192). -/
inductive SyncErr
  | badLine (line : String) (row : DraftRow)
  | badInt (line : String)
deriving DecidableEq, Repr

/-- procLine models one iteration of the parsing loop of insert_up_to
(gitarlog.py lines 155-180) over the state (records inserted so far,
accumulated draft row).  An empty line is the `line == b'\n'` skip; the
branch order (timestamp fields, digest lines, sentinel, error) follows
the source. -/
def procLine (rknEpoch : Int) (acc : List LogRecord × DraftRow)
    (line : String) : Except SyncErr (List LogRecord × DraftRow) :=
  if line = "" then .ok acc
  else
    match split3 line with
    | none => .error (.badLine line acc.2)
    | some (a, b, c) =>
      match timesMap c with
      | some tf =>
        match intParse b with
        | none => .error (.badLine line acc.2)
        | some v =>
          .ok (acc.1, setTime acc.2 tf (if v = rknEpoch then none else some v))
      | none =>
        match algoOf a with
        | some alg =>
          match hexDecode b with
          | none => .error (.badLine line acc.2)
          | some bytes =>
            match fnameMap c with
            | some fk => .ok (acc.1, setDigest acc.2 fk alg bytes)
            | none => .error (.badLine line acc.2)
        | none =>
          if a = ['.'] ∧ b = ['.'] ∧ c = ['.'] then
            if acc.2 = emptyRow then .ok acc
            else
              match rowToRecord acc.2 with
              | some r => .ok (acc.1 ++ [r], emptyRow)
              | none => .error (.badLine line acc.2)
          else .error (.badLine line acc.2)

/-- procLines folds procLine over the whole `git log` output. -/
def procLines (rknEpoch : Int) :
    List String → List LogRecord × DraftRow →
    Except SyncErr (List LogRecord × DraftRow)
  | [], acc => .ok acc
  | l :: ls, acc =>
    match procLine rknEpoch acc l with
    | .error e => .error e
    | .ok next => procLines rknEpoch ls next

/-- GitEnv models the external world poll_fs reads: the two branch tips
resolved by git_rev_parse, the sentinel epoch constant RKN_EPOCH imported
from rkndex.const (its definition file is not under src/; the spec calls
it "a specific upstream sentinel epoch value" meaning "field absent",
so its value is left abstract here), and the lines produced by the two
`git log` subprocess invocations for a given commit range. -/
structure GitEnv where
  headTip : Bytes
  b100Tip : Bytes
  rknEpoch : Int
  bodyLines : Option Bytes → Bytes → List String
  atLines : Option Bytes → Bytes → List String

/-- insert_up_to models gitarlog.py lines 133-182: parse the body lines of
the commit range and append the resulting records to the log table. -/
def insert_up_to (env : GitEnv) (st : GitarState) (dbHead : Option Bytes)
    (uptohead : Bytes) : Except SyncErr GitarState :=
  match procLines env.rknEpoch (env.bodyLines dbHead uptohead)
      ([], emptyRow) with
  | .error e => .error e
  | .ok (recs, _) => .ok { st with log := st.log ++ recs }

/-- atLineInt models `int(line.decode('ascii').strip())`
(gitarlog.py line 192). -/
def atLineInt (line : String) : Option Int :=
  match tokenize line with
  | [t] => intParse t
  | _ => none

/-- parseAtLines parses every `%at` line, failing on the first bad one. -/
def parseAtLines : List String → Except SyncErr (List Int)
  | [] => .ok []
  | l :: ls =>
    match atLineInt l with
    | none => .error (.badInt l)
    | some v => (parseAtLines ls).map (fun vs => v :: vs)

/-- insert_100_up_to models gitarlog.py lines 184-195: each commit of the
range contributes one `signing_time` row to log100. -/
def insert_100_up_to (env : GitEnv) (st : GitarState) (dbHead : Option Bytes)
    (uptohead : Bytes) : Except SyncErr GitarState :=
  match parseAtLines (env.atLines dbHead uptohead) with
  | .error e => .error e
  | .ok vs => .ok { st with log100 := st.log100 ++ vs }

/-- update_db_commit_head models `update_db_commit('head', git_head)`
(gitarlog.py lines 109-114): the single pointer row is set. -/
def update_db_commit_head (st : GitarState) (h : Bytes) : GitarState :=
  { st with head := some h }

/-- update_db_commit_main100 models `update_db_commit('main100', git_100)`. -/
def update_db_commit_main100 (st : GitarState) (h : Bytes) : GitarState :=
  { st with main100 := some h }

/-- poll_fs models gitarlog.py lines 24-36: resolve both tips, and for each
branch whose stored pointer differs, parse the new range and advance the
pointer, all within one transaction per branch. -/
def poll_fs (env : GitEnv) (st : GitarState) : Except SyncErr GitarState :=
  let git_head := env.headTip
  let git_100 := env.b100Tip
  match (if st.head ≠ some git_head then
           (insert_up_to env st st.head git_head).map
             (fun s => update_db_commit_head s git_head)
         else .ok st) with
  | .error e => .error e
  | .ok st1 =>
    if st1.main100 ≠ some git_100 then
      (insert_100_up_to env st1 st1.main100 git_100).map
        (fun s => update_db_commit_main100 s git_100)
    else .ok st1

/-- isTimestampLine holds of a body line of the timestamp shape: three
parts, the third naming one of the five known time fields and the second
parsing as an integer (gitarlog.py lines 160-164). -/
def isTimestampLine (line : String) : Bool :=
  match split3 line with
  | some (_, b, c) => (timesMap c).isSome && (intParse b).isSome
  | none => false

/-- isDigestLine holds of a body line of the digest shape: three parts,
the first naming one of the five recognized hash tokens, the second a
valid hex digest, the third one of the two file names
(gitarlog.py lines 165-167). -/
def isDigestLine (line : String) : Bool :=
  match split3 line with
  | some (a, b, c) =>
    (algoOf a).isSome && (hexDecode b).isSome && (fnameMap c).isSome
  | none => false

/-- isSentinel holds of the `. . .` boundary line appended after each
commit body by the tformat (gitarlog.py lines 134, 168). -/
def isSentinel (line : String) : Bool :=
  match split3 line with
  | some (a, b, c) => a == ['.'] && b == ['.'] && c == ['.']
  | none => false

/-- Val models a sqlite value as handed back to Python by a SELECT. -/
inductive Val
  | int (i : Int)
  | blob (b : Bytes)
  | null
deriving DecidableEq, Repr

/-- public_columns models the class attribute `GitarLog.public_columns`
(gitarlog.py lines 14-16).  Note: xml_git and sig_git are not public. -/
def public_columns : Finset String :=
  {"update_time", "update_time_urgently", "signing_time",
   "xml_mtime", "sig_mtime", "xml_md5", "sig_md5", "xml_sha1", "sig_sha1",
   "xml_sha256", "sig_sha256", "xml_sha512", "sig_sha512"}

/-- optInt embeds a nullable INTEGER column value. -/
def optInt : Option Int → Val
  | none => .null
  | some i => .int i

/-- getCol reads the named column of a log row, as the SELECT projection
does; only allow-listed names are ever requested
(gitarlog.py lines 70-75). -/
def getCol (r : LogRecord) (c : String) : Val :=
  if c = "update_time" then .int r.update_time
  else if c = "update_time_urgently" then optInt r.update_time_urgently
  else if c = "signing_time" then .int r.signing_time
  else if c = "xml_mtime" then optInt r.xml_mtime
  else if c = "sig_mtime" then optInt r.sig_mtime
  else if c = "xml_md5" then .blob r.xml_md5
  else if c = "sig_md5" then .blob r.sig_md5
  else if c = "xml_sha1" then .blob r.xml_sha1
  else if c = "sig_sha1" then .blob r.sig_sha1
  else if c = "xml_sha256" then .blob r.xml_sha256
  else if c = "sig_sha256" then .blob r.sig_sha256
  else if c = "xml_sha512" then .blob r.xml_sha512
  else if c = "sig_sha512" then .blob r.sig_sha512
  else .null

/-- SortKey is the ORDER BY key `(update_time, xml_sha1, sig_sha1)` of
dumps_since (gitarlog.py line 72), compared lexicographically with
sqlite BLOB (memcmp) order on the two hashes. -/
abbrev SortKey := Lex (Int × Lex (Bytes × Bytes))

/-- sortKey extracts the ORDER BY key of one log row. -/
def sortKey (r : LogRecord) : SortKey :=
  toLex (r.update_time, toLex (r.xml_sha1, r.sig_sha1))

/-- keyLE is the boolean comparison on ORDER BY keys used to model the
ordering sqlite applies. -/
def keyLE (r1 r2 : LogRecord) : Bool := decide (sortKey r1 ≤ sortKey r2)

/-- dumps_rows models the SELECT of dumps_since before projection
(gitarlog.py lines 70-74): rows with `update_time >= since`, ordered by
`(update_time, xml_sha1, sig_sha1)`, limited to `count`. -/
def dumps_rows (st : GitarState) (since : Int) (count : Nat) :
    List LogRecord :=
  ((st.log.filter (fun r => decide (since ≤ r.update_time))).mergeSort
    keyLE).take count

/-- sortedCols models `sorted(needed)` (gitarlog.py line 73). -/
def sortedCols (needed : Finset String) : List String :=
  needed.sort (· ≤ ·)

/-- projectRow models the per-row dict comprehension of gitarlog.py
line 75: each selected row becomes an association of column name to
value, in the sorted column order of the SELECT. -/
def projectRow (needed : Finset String) (r : LogRecord) :
    List (String × Val) :=
  (sortedCols needed).map (fun c => (c, getCol r c))

/-- DumpsErr is `ValueError('Bad columns set', extra, needed)`
(gitarlog.py line 68). -/
inductive DumpsErr
  | badColumns (extra needed : Finset String)
deriving DecidableEq

/-- dumps_since models gitarlog.py lines 62-75.  `columns = None` defaults
to the public set; the column sets are validated before the query runs. -/
def dumps_since (st : GitarState) (since : Int) (count : Nat)
    (columns : Option (Finset String)) :
    Except DumpsErr (List (List (String × Val))) :=
  let cols := columns.getD public_columns
  let extra := cols \ public_columns
  let needed := cols ∩ public_columns
  if extra ≠ ∅ ∨ needed = ∅ then .error (.badColumns extra needed)
  else .ok ((dumps_rows st since count).map (projectRow needed))

/-- bytesToNat models `int.from_bytes(xml_sha1, sys.byteorder)` on the
little-endian platforms the service runs on (gitarlog.py line 55). -/
def bytesToNat : Bytes → Nat
  | [] => 0
  | b :: bs => b + 256 * bytesToNat bs

/-- natToBytes models `r.to_bytes(20, byteorder)` (gitarlog.py line 60),
little-endian, k bytes. -/
def natToBytes : Nat → Nat → Bytes
  | 0, _ => []
  | k + 1, n => n % 256 :: natToBytes k (n / 256)

/-- xorAll is the XOR of a list of naturals, the combining operation of
digest_xml_sha1. -/
def xorAll (l : List Nat) : Nat := l.foldl (fun a b => a ^^^ b) 0

/-- digest_xml_sha1 models gitarlog.py lines 53-60: starting from 0, XOR in
the integer value of every row's xml_sha1, then render 20 bytes. -/
def digest_xml_sha1 (st : GitarState) : Bytes :=
  natToBytes 20
    (st.log.foldl (fun r row => r ^^^ bytesToNat row.xml_sha1) 0)

end GitarLog

namespace DonorZavod

/-- ZRow models one row of the `zavod` table (donor_zavod.py lines 26-31). -/
structure ZRow where
  zip_fname : String
  zip_size : Int
  fetched : Bool
  xml_sha256 : Option Bytes
  last_seen : Int
deriving DecidableEq, Repr

/-- ZavodState models the donor's view of the sqlite database: the `zavod`
table plus the xml_sha256 column of the shared `log` table read by the
eligibility subquery `SELECT xml_sha256 FROM log`. -/
structure ZavodState where
  zavod : List ZRow
  log_sha256 : List Bytes
deriving DecidableEq, Repr

/-- ZEnv models the outside world of one list_handles call: the current
time `int(time.time())` and the (filename, size) pairs matched on the
listing page by the regex (donor_zavod.py lines 33-40). -/
structure ZEnv where
  now : Int
  listing : List (String × Int)

/-- upsertRow models
`INSERT INTO zavod (zip_fname, zip_size, fetched, last_seen)
 VALUES (?, ?, 0, ?) ON CONFLICT (zip_fname) DO UPDATE SET last_seen = ?`
(donor_zavod.py lines 42-45). -/
def upsertRow (rows : List ZRow) (zip_fname : String) (zip_size : Int)
    (now : Int) : List ZRow :=
  if rows.any (fun r => r.zip_fname == zip_fname) then
    rows.map (fun r =>
      if r.zip_fname == zip_fname then { r with last_seen := now } else r)
  else rows ++ [⟨zip_fname, zip_size, false, none, now⟩]

/-- eligible models the WHERE clause of the final SELECT (donor_zavod.py
lines 47-49): `NOT fetched OR xml_sha256 IS NOT NULL AND xml_sha256 NOT IN
(SELECT xml_sha256 FROM log)` with SQL precedence (AND binds tighter than
OR); log.xml_sha256 is NOT NULL so NOT IN is plain non-membership. -/
def eligible (log_sha256 : List Bytes) (r : ZRow) : Bool :=
  !r.fetched ||
    (match r.xml_sha256 with
     | none => false
     | some d => !(decide (d ∈ log_sha256)))

/-- list_handles models donor_zavod.py lines 34-50: inside one exclusive
transaction, upsert every listed file refreshing last_seen, delete rows
with `last_seen < now - 86400`, then return up to `limit`
(zip_fname, zip_size) pairs of eligible rows. -/
def list_handles (env : ZEnv) (st : ZavodState) (limit : Nat) :
    ZavodState × List (String × Int) :=
  let rows := env.listing.foldl
    (fun rs p => upsertRow rs p.1 p.2 env.now) st.zavod
  let rows := rows.filter (fun r => !(decide (r.last_seen < env.now - 86400)))
  ({ st with zavod := rows },
   ((rows.filter (eligible st.log_sha256)).map
     (fun r => (r.zip_fname, r.zip_size))).take limit)

/-- ZFetchEnv models the effects of save_url and the zip extraction during
one fetch_xml_and_sig call: the on-disk size of the downloaded file and
the sha256 of the extracted dump.xml. -/
structure ZFetchEnv where
  actualSize : Int
  digest : Bytes

/-- ZFetchErr is `RuntimeError('Truncated zip', zip_fname, zip_size,
os.path.getsize(zip_path))` (donor_zavod.py line 57). -/
inductive ZFetchErr
  | truncated (zip_fname : String) (zip_size actual : Int)
deriving DecidableEq, Repr

/-- fetch_xml_and_sig models donor_zavod.py lines 52-66: download, compare
the downloaded size with the one observed during listing, extract and
hash, then record fetched=1 and the digest for the row in one exclusive
transaction.  The state is returned alongside the outcome so the error
case exhibits the donor state unchanged. -/
def fetch_xml_and_sig (env : ZFetchEnv) (st : ZavodState)
    (handle : String × Int) : ZavodState × Except ZFetchErr Bytes :=
  if env.actualSize ≠ handle.2 then
    (st, .error (.truncated handle.1 handle.2 env.actualSize))
  else
    ({ st with zavod := st.zavod.map (fun r =>
        if r.zip_fname == handle.1 then
          { r with fetched := true, xml_sha256 := some env.digest }
        else r) },
     .ok env.digest)

end DonorZavod

namespace DonorChe

/-- CheState models the single `che` row (donor_che.py lines 28-36)
together with the in-memory self.etag / self.last_modified mirrors read
from it at construction. -/
structure CheState where
  etag : String
  last_modified : String
  xml_sha256 : Option Bytes
deriving DecidableEq, Repr

/-- CheResp models the outcome of the conditional GET issued by
list_handles: HTTP 200 carrying fresh validators (the open streaming
response object itself is the handle), or a not-modified response. -/
inductive CheResp
  | ok (etag last_modified : String)
  | notModified
deriving DecidableEq, Repr

/-- requestHeaders is the pair sent as If-None-Match / If-Modified-Since
on a conditional GET (donor_che.py lines 43-46). -/
def requestHeaders (st : CheState) : String × String :=
  (st.etag, st.last_modified)

/-- list_handles models donor_che.py lines 41-52: on 200 the response is
returned as the single pending handle, otherwise the response is closed
and the sequence is empty; no donor state is touched either way.
`assert limit >= 1` becomes a theorem hypothesis. -/
def list_handles (st : CheState) (resp : CheResp) (limit : Nat) :
    CheState × List CheResp :=
  match resp with
  | .ok e lm => (st, [.ok e lm])
  | .notModified => (st, [])

/-- fetch_xml_and_sig models donor_che.py lines 55-76 on a 200 handle:
stream the body to disk, record the validators from the response clearing
the stale digest in a first exclusive transaction (`UPDATE che SET
etag = ?, last_modified = ?, xml_sha256 = NULL` overwrites the whole
single row), extract and hash, then record the digest in a second
transaction.  Passing a not-modified value is a Python KeyError, hence
None. -/
def fetch_xml_and_sig (st : CheState) (resp : CheResp) (digest : Bytes) :
    Option (CheState × Bytes) :=
  match resp with
  | .ok e lm =>
    let st1 : CheState := { etag := e, last_modified := lm, xml_sha256 := none }
    let st2 : CheState := { st1 with xml_sha256 := some digest }
    some (st2, digest)
  | .notModified => none

end DonorChe

open GitarLog in
/-- C1: for every 32-byte digest d, `needs_xml_sha256 d` is true iff no
record in the log table carries d as its xml_sha256; consequently after a
record carrying d is inserted it returns false for d, and it returns true
for any digest never inserted. -/
theorem C1_needs_xml_sha256_dedup (st : GitarState) (d : Bytes)
    (hlen : d.length = 32) :
    (needs_xml_sha256 st d = true ↔ ∀ r ∈ st.log, r.xml_sha256 ≠ d) ∧
    (∀ rec : LogRecord, rec.xml_sha256 = d →
      needs_xml_sha256 (insertLog st rec) d = false) := by
  constructor
  · simp [needs_xml_sha256, List.countP_eq_zero]
  · intro rec hrec
    simp [needs_xml_sha256, insertLog, List.countP_append, List.countP_cons, hrec]

open GitarLog in
/-- Witness for C1 at a concrete state and digest. -/
theorem C1_needs_xml_sha256_dedup_witness :
    (List.replicate 32 0 : Bytes).length = 32 ∧
    (needs_xml_sha256 ⟨[], [], none, none⟩ (List.replicate 32 0) = true ↔
      ∀ r ∈ ([] : List LogRecord), r.xml_sha256 ≠ List.replicate 32 0) :=
  ⟨by decide,
   (C1_needs_xml_sha256_dedup ⟨[], [], none, none⟩ (List.replicate 32 0)
     (by decide)).1⟩

open GitarLog in
/-- C2: when the resolved tips of both branches equal the locally stored
pointers, poll_fs leaves the whole database state (log, log100, head,
main100) unchanged, so re-running it in that state is a no-op. -/
theorem C2_poll_fs_noop (env : GitEnv) (st : GitarState)
    (h1 : st.head = some env.headTip) (h2 : st.main100 = some env.b100Tip) :
    poll_fs env st = .ok st := by
  simp [poll_fs, h1, h2]

open GitarLog in
/-- Witness for C2 at a concrete environment and state. -/
theorem C2_poll_fs_noop_witness :
    (⟨[], [], some [1], some [2]⟩ : GitarState).head = some [1] ∧
    (⟨[], [], some [1], some [2]⟩ : GitarState).main100 = some [2] ∧
    poll_fs ⟨[1], [2], 0, fun _ _ => [], fun _ _ => []⟩
      ⟨[], [], some [1], some [2]⟩ = .ok ⟨[], [], some [1], some [2]⟩ :=
  ⟨rfl, rfl,
   C2_poll_fs_noop ⟨[1], [2], 0, fun _ _ => [], fun _ _ => []⟩
     ⟨[], [], some [1], some [2]⟩ rfl rfl⟩

open GitarLog in
/-- C7: during full-branch commit parsing, (1) any non-blank body line that
matches neither the timestamp shape nor the digest shape and is not the
sentinel makes the parsing step fail with the RuntimeError carrying the
offending line and the accumulated partial record, which aborts the whole
sync; and (2) a run of lines containing no recognized lines at all (blank
lines and sentinels only, as produced by commits with empty bodies)
starting from an empty draft row inserts nothing: no empty record is ever
inserted. -/
theorem C7_parse_error_and_empty_skip :
    (∀ (rknEpoch : Int) (recs : List LogRecord) (row : DraftRow)
       (line : String),
      line ≠ "" → isTimestampLine line = false → isDigestLine line = false →
      isSentinel line = false →
      procLine rknEpoch (recs, row) line = .error (.badLine line row)) ∧
    (∀ (rknEpoch : Int) (recs : List LogRecord) (lines : List String),
      (∀ l ∈ lines, l = "" ∨ isSentinel l = true) →
      procLines rknEpoch lines (recs, emptyRow) = .ok (recs, emptyRow)) := by
  constructor
  · intro rknEpoch recs row line hne hts hdl hsn
    unfold isTimestampLine at hts
    unfold isDigestLine at hdl
    unfold isSentinel at hsn
    unfold procLine
    rw [if_neg hne]
    cases hsp : split3 line with
    | none => rfl
    | some abc =>
      obtain ⟨a, b, c⟩ := abc
      rw [hsp] at hts hdl hsn
      cases htm : timesMap c with
      | some tf =>
        cases hip : intParse b with
        | none => simp [htm, hip]
        | some v => simp [htm, hip] at hts
      | none =>
        cases halg : algoOf a with
        | some alg =>
          cases hhx : hexDecode b with
          | none => simp [htm, halg, hhx]
          | some bs =>
            cases hfn : fnameMap c with
            | none => simp [htm, halg, hhx, hfn]
            | some fk => simp [halg, hhx, hfn] at hdl
        | none =>
          have hcond : ¬(a = ['.'] ∧ b = ['.'] ∧ c = ['.']) := by
            intro hand
            obtain ⟨ha, hb, hc⟩ := hand
            simp [ha, hb, hc] at hsn
          simp only [htm, halg]
          rw [if_neg hcond]
  · intro rknEpoch recs lines hall
    induction lines with
    | nil => rfl
    | cons l ls ih =>
      have hl := hall l (by simp)
      have hstep : procLine rknEpoch (recs, emptyRow) l = .ok (recs, emptyRow) := by
        rcases hl with hblank | hsent
        · subst hblank; rfl
        · unfold isSentinel at hsent
          cases hsp : split3 l with
          | none => rw [hsp] at hsent; simp at hsent
          | some abc =>
            obtain ⟨a, b, c⟩ := abc
            rw [hsp] at hsent
            simp only [Bool.and_eq_true, beq_iff_eq] at hsent
            obtain ⟨⟨ha, hb⟩, hc⟩ := hsent
            subst ha; subst hb; subst hc
            have hne : l ≠ "" := by
              intro h
              rw [h] at hsp
              cases hsp
            unfold procLine
            rw [if_neg hne, hsp]
            rfl
      unfold procLines
      rw [hstep]
      exact ih (fun l hl => hall l (by simp [hl]))

open GitarLog in
/-- Witness for C7 at concrete lines: an unrecognized line errors with
full context; a blank-and-sentinel body inserts nothing. -/
theorem C7_parse_error_and_empty_skip_witness :
    ("bogus line here" ≠ "" ∧
     isTimestampLine "bogus line here" = false ∧
     isDigestLine "bogus line here" = false ∧
     isSentinel "bogus line here" = false ∧
     procLine 0 ([], emptyRow) "bogus line here" =
       .error (.badLine "bogus line here" emptyRow)) ∧
    ((∀ l ∈ ["", ". . .", ""], l = "" ∨ isSentinel l = true) ∧
     procLines 0 ["", ". . .", ""] ([], emptyRow) = .ok ([], emptyRow)) :=
  ⟨⟨by decide, by decide, by decide, by decide,
    C7_parse_error_and_empty_skip.1 0 [] emptyRow "bogus line here"
      (by decide) (by decide) (by decide) (by decide)⟩,
   ⟨by decide,
    C7_parse_error_and_empty_skip.2 0 [] ["", ". . .", ""] (by decide)⟩⟩

namespace GitarLog

/-- keyLE_trans: the ORDER BY comparison is transitive. -/
theorem keyLE_trans (a b c : LogRecord) (hab : keyLE a b = true)
    (hbc : keyLE b c = true) : keyLE a c = true := by
  simp only [keyLE, decide_eq_true_eq] at hab hbc ⊢
  exact le_trans hab hbc

/-- keyLE_total: the ORDER BY comparison is total. -/
theorem keyLE_total (a b : LogRecord) : (keyLE a b || keyLE b a) = true := by
  simp only [keyLE, Bool.or_eq_true, decide_eq_true_eq]
  exact le_total _ _

end GitarLog

open GitarLog in
/-- C3: dumps_since returns at most `count` rows, every selected row has
`update_time ≥ since`, the selection is ordered by
`(update_time, xml_sha1, sig_sha1)`, a requested column set containing any
column outside the allow-list yields the validation error naming the
offending columns (and no query result), and on the valid path the result
is exactly the projection of that ordered selection. -/
theorem C3_dumps_since_contract (st : GitarState) (since : Int)
    (count : Nat) (cols : Finset String) :
    (cols \ public_columns ≠ ∅ →
      dumps_since st since count (some cols) =
        .error (.badColumns (cols \ public_columns)
          (cols ∩ public_columns))) ∧
    (dumps_rows st since count).length ≤ count ∧
    (∀ r ∈ dumps_rows st since count, since ≤ r.update_time) ∧
    List.Pairwise (fun r1 r2 => sortKey r1 ≤ sortKey r2)
      (dumps_rows st since count) ∧
    (cols \ public_columns = ∅ → cols ∩ public_columns ≠ ∅ →
      dumps_since st since count (some cols) =
        .ok ((dumps_rows st since count).map
          (projectRow (cols ∩ public_columns)))) := by
  refine ⟨?_, ?_, ?_, ?_, ?_⟩
  · intro hextra
    simp [dumps_since, hextra]
  · simp only [dumps_rows, List.length_take]
    exact min_le_left _ _
  · intro r hr
    have hr2 := List.take_subset _ _ hr
    rw [List.mem_mergeSort] at hr2
    rw [List.mem_filter] at hr2
    exact of_decide_eq_true hr2.2
  · have hs := List.sorted_mergeSort keyLE_trans keyLE_total
      (st.log.filter (fun r => decide (since ≤ r.update_time)))
    have hs2 : List.Pairwise (fun r1 r2 => sortKey r1 ≤ sortKey r2)
        ((st.log.filter (fun r => decide (since ≤ r.update_time))).mergeSort
          keyLE) := by
      refine hs.imp ?_
      intro a b h
      exact of_decide_eq_true h
    exact List.Pairwise.sublist (List.take_sublist _ _) hs2
  · intro hextra hneeded
    simp [dumps_since, hextra, hneeded]

open GitarLog in
/-- Witness for C3: a disallowed column set is rejected with the offending
columns named, and a valid singleton column set succeeds. -/
theorem C3_dumps_since_contract_witness :
    (({"nope"} : Finset String) \ public_columns ≠ ∅ ∧
      dumps_since ⟨[], [], none, none⟩ 0 5 (some {"nope"}) =
        .error (.badColumns ({"nope"} \ public_columns)
          ({"nope"} ∩ public_columns))) ∧
    (({"xml_md5"} : Finset String) \ public_columns = ∅ ∧
      ({"xml_md5"} : Finset String) ∩ public_columns ≠ ∅ ∧
      dumps_since ⟨[], [], none, none⟩ 0 5 (some {"xml_md5"}) =
        .ok ((dumps_rows ⟨[], [], none, none⟩ 0 5).map
          (projectRow ({"xml_md5"} ∩ public_columns)))) :=
  ⟨⟨by decide,
    (C3_dumps_since_contract ⟨[], [], none, none⟩ 0 5 {"nope"}).1
      (by decide)⟩,
   ⟨by decide, by decide,
    (C3_dumps_since_contract ⟨[], [], none, none⟩ 0 5
      {"xml_md5"}).2.2.2.2 (by decide) (by decide)⟩⟩

open GitarLog in
/-- C10: a requested column set whose intersection with the allow-list is
empty (for instance the empty set) is rejected with the validation error
before any query result is produced, even when it contains no disallowed
column. -/
theorem C10_dumps_since_empty_intersection (st : GitarState) (since : Int)
    (count : Nat) (cols : Finset String)
    (h : cols ∩ public_columns = ∅) :
    dumps_since st since count (some cols) =
      .error (.badColumns (cols \ public_columns) ∅) := by
  rw [← h]
  simp [dumps_since, h]

open GitarLog in
/-- Witness for C10 at the empty column set, which contains no disallowed
column at all. -/
theorem C10_dumps_since_empty_intersection_witness :
    ((∅ : Finset String) ∩ public_columns = ∅) ∧
    dumps_since ⟨[], [], none, none⟩ 0 5 (some ∅) =
      .error (.badColumns ((∅ : Finset String) \ public_columns) ∅) :=
  ⟨by decide,
   C10_dumps_since_empty_intersection ⟨[], [], none, none⟩ 0 5 ∅
     (by decide)⟩

namespace GitarLog

/-- foldl_xor_init: folding XOR from an arbitrary start equals the start
XORed with the fold from zero. -/
theorem foldl_xor_init (l : List Nat) (a : Nat) :
    l.foldl (fun x y => x ^^^ y) a = a ^^^ xorAll l := by
  induction l generalizing a with
  | nil => simp [xorAll]
  | cons x xs ih =>
    simp only [xorAll, List.foldl_cons]
    rw [ih (a ^^^ x), ih (0 ^^^ x), Nat.zero_xor, Nat.xor_assoc]

/-- xorAll_append: XOR over a concatenation splits. -/
theorem xorAll_append (l1 l2 : List Nat) :
    xorAll (l1 ++ l2) = xorAll l1 ^^^ xorAll l2 := by
  simp only [xorAll, List.foldl_append]
  rw [foldl_xor_init l2 (List.foldl (fun a b => a ^^^ b) 0 l1)]
  rfl

/-- digest_foldl_eq: the row fold of digest_xml_sha1 is the XOR of the
mapped hash values. -/
theorem digest_foldl_eq (l : List LogRecord) :
    l.foldl (fun r row => r ^^^ bytesToNat row.xml_sha1) 0 =
      xorAll (l.map (fun row => bytesToNat row.xml_sha1)) := by
  rw [xorAll, List.foldl_map]

/-- bytesToNat_lt: a byte string of length n decodes below 256 ^ n. -/
theorem bytesToNat_lt (bs : Bytes) (h : ∀ b ∈ bs, b < 256) :
    bytesToNat bs < 256 ^ bs.length := by
  induction bs with
  | nil => simp [bytesToNat]
  | cons b tl ih =>
    have hb : b < 256 := h b (by simp)
    have ht : bytesToNat tl < 256 ^ tl.length :=
      ih (fun x hx => h x (by simp [hx]))
    have hp : (256 : Nat) ^ (tl.length + 1) = 256 * 256 ^ tl.length := by
      ring
    simp only [bytesToNat, List.length_cons, hp]
    omega

/-- xorAll_lt: XOR of values below a power of two stays below it. -/
theorem xorAll_lt (l : List Nat) (n : Nat) (h : ∀ x ∈ l, x < 2 ^ n) :
    xorAll l < 2 ^ n := by
  induction l with
  | nil =>
    simp only [xorAll, List.foldl_nil]
    exact Nat.pos_pow_of_pos n (by omega)
  | cons x xs ih =>
    have hx : xorAll (x :: xs) = x ^^^ xorAll xs := by
      simp only [xorAll, List.foldl_cons]
      rw [foldl_xor_init, Nat.zero_xor]
      rfl
    rw [hx]
    exact Nat.xor_lt_two_pow (h x (by simp))
      (ih (fun y hy => h y (by simp [hy])))

/-- bytesToNat_natToBytes: the byte rendering round-trips modulo 256 ^ k. -/
theorem bytesToNat_natToBytes (k n : Nat) :
    bytesToNat (natToBytes k n) = n % 256 ^ k := by
  induction k generalizing n with
  | zero => simp [natToBytes, bytesToNat, Nat.mod_one]
  | succ k ih =>
    simp only [natToBytes, bytesToNat, ih]
    rw [pow_succ, mul_comm (256 ^ k) 256, Nat.mod_mul]

/-- xorAll_log_lt: the XOR of the hash values of a well-formed log is
below 2 ^ 160. -/
theorem xorAll_log_lt (l : List LogRecord)
    (h : ∀ r ∈ l, r.xml_sha1.length = 20 ∧ ∀ b ∈ r.xml_sha1, b < 256) :
    xorAll (l.map (fun r => bytesToNat r.xml_sha1)) < 2 ^ 160 := by
  apply xorAll_lt
  intro x hx
  rw [List.mem_map] at hx
  obtain ⟨r, hr, rfl⟩ := hx
  have hlt := bytesToNat_lt r.xml_sha1 (h r hr).2
  rw [(h r hr).1] at hlt
  calc bytesToNat r.xml_sha1 < 256 ^ 20 := hlt
    _ = 2 ^ 160 := by norm_num

end GitarLog

open GitarLog in
/-- C4: digest_xml_sha1 combines every record's xml_sha1 with XOR, so it
is invariant under any permutation of insertion order (two indexes holding
the identical record set produce the identical digest), and for
well-formed hashes the digest of two logs agrees exactly when the XOR over
the combined multiset of their legacy hashes is zero — it changes iff the
multiset changes by an odd-parity difference. -/
theorem C4_digest_xml_sha1_xor_invariant (st1 st2 : GitarState)
    (h1 : ∀ r ∈ st1.log, r.xml_sha1.length = 20 ∧ ∀ b ∈ r.xml_sha1, b < 256)
    (h2 : ∀ r ∈ st2.log, r.xml_sha1.length = 20 ∧ ∀ b ∈ r.xml_sha1, b < 256) :
    (st1.log.Perm st2.log → digest_xml_sha1 st1 = digest_xml_sha1 st2) ∧
    (digest_xml_sha1 st1 = digest_xml_sha1 st2 ↔
      xorAll ((st1.log ++ st2.log).map (fun r => bytesToNat r.xml_sha1))
        = 0) := by
  constructor
  · intro hperm
    unfold digest_xml_sha1
    congr 1
    haveI : RightCommutative
        (fun (r : Nat) (row : LogRecord) => r ^^^ bytesToNat row.xml_sha1) :=
      ⟨fun b a a' => by
        rw [Nat.xor_assoc, Nat.xor_assoc,
          Nat.xor_comm (bytesToNat a.xml_sha1) (bytesToNat a'.xml_sha1)]⟩
    exact hperm.foldl_eq 0
  · rw [digest_xml_sha1, digest_xml_sha1, digest_foldl_eq, digest_foldl_eq,
      List.map_append, xorAll_append, Nat.xor_eq_zero]
    constructor
    · intro heq
      have hb := congrArg bytesToNat heq
      rw [bytesToNat_natToBytes, bytesToNat_natToBytes] at hb
      have hlt1 := xorAll_log_lt st1.log h1
      have hlt2 := xorAll_log_lt st2.log h2
      have h160 : (256 : Nat) ^ 20 = 2 ^ 160 := by norm_num
      rw [h160, Nat.mod_eq_of_lt hlt1, Nat.mod_eq_of_lt hlt2] at hb
      exact hb
    · intro heq
      rw [heq]

open GitarLog in
/-- Witness for C4 at a pair of concrete well-formed states. -/
theorem C4_digest_xml_sha1_xor_invariant_witness :
    (∀ r ∈ (⟨[], [], none, none⟩ : GitarState).log,
      r.xml_sha1.length = 20 ∧ ∀ b ∈ r.xml_sha1, b < 256) ∧
    (digest_xml_sha1 ⟨[], [], none, none⟩ =
        digest_xml_sha1 ⟨[], [], none, none⟩ ↔
      xorAll (((⟨[], [], none, none⟩ : GitarState).log ++
          (⟨[], [], none, none⟩ : GitarState).log).map
        (fun r => bytesToNat r.xml_sha1)) = 0) :=
  ⟨by simp,
   (C4_digest_xml_sha1_xor_invariant ⟨[], [], none, none⟩
     ⟨[], [], none, none⟩ (by simp) (by simp)).2⟩

namespace DonorZavod

/-- mem_upsertRow: a row of the upserted table whose name differs from the
upserted name was already in the table, unchanged. -/
theorem mem_upsertRow (rows : List ZRow) (f : String) (s now : Int)
    (r : ZRow) (hr : r ∈ upsertRow rows f s now) (hne : r.zip_fname ≠ f) :
    r ∈ rows := by
  unfold upsertRow at hr
  by_cases hany : rows.any (fun q => q.zip_fname == f)
  · rw [if_pos hany, List.mem_map] at hr
    obtain ⟨q, hq, hqe⟩ := hr
    by_cases hqf : (q.zip_fname == f) = true
    · rw [if_pos hqf] at hqe
      exfalso
      apply hne
      rw [← hqe]
      exact beq_iff_eq.mp hqf
    · rw [if_neg hqf] at hqe
      rwa [hqe] at hq
  · rw [if_neg hany, List.mem_append] at hr
    rcases hr with h | h
    · exact h
    · exfalso
      apply hne
      rw [List.mem_singleton] at h
      rw [h]

/-- mem_foldl_upsert: a row of the reconciled table whose name occurs
nowhere in the listing was already in the table before reconciliation. -/
theorem mem_foldl_upsert (listing : List (String × Int)) (now : Int) :
    ∀ (rows : List ZRow) (r : ZRow),
      r ∈ listing.foldl (fun rs p => upsertRow rs p.1 p.2 now) rows →
      r.zip_fname ∉ listing.map Prod.fst → r ∈ rows := by
  induction listing with
  | nil =>
    intro rows r h _
    exact h
  | cons p ps ih =>
    intro rows r h hnot
    simp only [List.foldl_cons] at h
    have hne : r.zip_fname ≠ p.1 := by
      intro he
      apply hnot
      simp [he]
    have hrec := ih (upsertRow rows p.1 p.2 now) r h
      (by intro hm; apply hnot; simp only [List.map_cons, List.mem_cons]; exact Or.inr hm)
    exact mem_upsertRow rows p.1 p.2 now r hrec hne

end DonorZavod

open DonorZavod in
/-- C5: list_handles returns at most `limit` handles; a row is eligible
exactly when it is never fetched, or fetched with a recorded digest absent
from the log index; and every returned handle corresponds to an eligible
row of the reconciled table. -/
theorem C5_zavod_list_handles_eligibility (env : ZEnv) (st : ZavodState)
    (limit : Nat) (hlimit : 1 ≤ limit) :
    ((list_handles env st limit).2.length ≤ limit) ∧
    (∀ r : ZRow, eligible st.log_sha256 r = true ↔
      (r.fetched = false ∨ (r.fetched = true ∧
        ∃ d, r.xml_sha256 = some d ∧ d ∉ st.log_sha256))) ∧
    (∀ h ∈ (list_handles env st limit).2,
      ∃ r ∈ (list_handles env st limit).1.zavod,
        r.zip_fname = h.1 ∧ r.zip_size = h.2 ∧
        eligible st.log_sha256 r = true) := by
  refine ⟨?_, ?_, ?_⟩
  · simp only [list_handles, List.length_take]
    exact min_le_left _ _
  · intro r
    unfold eligible
    cases hf : r.fetched <;> cases hx : r.xml_sha256 <;> simp [hf, hx]
  · intro h hmem
    simp only [list_handles] at hmem ⊢
    have hmem2 := List.take_subset _ _ hmem
    rw [List.mem_map] at hmem2
    obtain ⟨r, hr, hfe⟩ := hmem2
    rw [List.mem_filter] at hr
    refine ⟨r, hr.1, ?_, ?_, hr.2⟩
    · rw [← hfe]
    · rw [← hfe]

open DonorZavod in
/-- Witness for C5 at a concrete environment, state and limit. -/
theorem C5_zavod_list_handles_eligibility_witness :
    (1 : Nat) ≤ 1 ∧
    (list_handles ⟨0, []⟩ ⟨[], []⟩ 1).2.length ≤ 1 :=
  ⟨by decide,
   (C5_zavod_list_handles_eligibility ⟨0, []⟩ ⟨[], []⟩ 1 (by decide)).1⟩

open DonorZavod in
/-- C6: when the downloaded size differs from the size observed during
listing, fetch_xml_and_sig fails with the truncation error carrying the
filename, the expected size and the actual size, and the donor state is
returned unchanged: no digest recorded, fetched untouched. -/
theorem C6_zavod_truncated_fetch (env : ZFetchEnv) (st : ZavodState)
    (zip_fname : String) (zip_size : Int)
    (hmis : env.actualSize ≠ zip_size) :
    fetch_xml_and_sig env st (zip_fname, zip_size) =
      (st, .error (.truncated zip_fname zip_size env.actualSize)) := by
  simp [fetch_xml_and_sig, hmis]

open DonorZavod in
/-- Witness for C6 at a concrete truncated download. -/
theorem C6_zavod_truncated_fetch_witness :
    ((⟨5, []⟩ : ZFetchEnv).actualSize ≠ (100 : Int)) ∧
    fetch_xml_and_sig ⟨5, []⟩ ⟨[], []⟩ ("registry-1.zip", 100) =
      (⟨[], []⟩, .error (.truncated "registry-1.zip" 100 5)) :=
  ⟨by decide,
   C6_zavod_truncated_fetch ⟨5, []⟩ ⟨[], []⟩ "registry-1.zip" 100
     (by decide)⟩

open DonorZavod in
/-- C8: every list_handles call purges every zavod row whose last_seen is
more than 86400 seconds before the current time: after the call every
surviving row is within the TTL, and a file absent from the listing all of
whose rows are stale (for instance one last observed thirty hours ago) no
longer has any row. -/
theorem C8_zavod_ttl_purge (env : ZEnv) (st : ZavodState) (limit : Nat)
    (fname : String)
    (hstale : ∀ r ∈ st.zavod, r.zip_fname = fname →
      r.last_seen < env.now - 86400)
    (habsent : fname ∉ env.listing.map Prod.fst) :
    (∀ r ∈ (list_handles env st limit).1.zavod,
      ¬(r.last_seen < env.now - 86400)) ∧
    (∀ r ∈ (list_handles env st limit).1.zavod, r.zip_fname ≠ fname) := by
  constructor
  · intro r hr
    simp only [list_handles] at hr
    rw [List.mem_filter] at hr
    simpa using hr.2
  · intro r hr heq
    simp only [list_handles] at hr
    rw [List.mem_filter] at hr
    have hfold := hr.1
    have hnotst : r.zip_fname ∉ env.listing.map Prod.fst := by
      rw [heq]
      exact habsent
    have horig := mem_foldl_upsert env.listing env.now st.zavod r hfold hnotst
    have hst := hstale r horig heq
    have hkeep := hr.2
    simp at hkeep
    omega

open DonorZavod in
/-- Witness for C8: a row last seen thirty hours before the poll and
absent from the listing is purged. -/
theorem C8_zavod_ttl_purge_witness :
    (∀ r ∈ (⟨[⟨"registry-1.zip", 100, false, none, 0⟩], []⟩ :
        ZavodState).zavod,
      r.zip_fname = "registry-1.zip" → r.last_seen < 108000 - 86400) ∧
    ("registry-1.zip" ∉ ([] : List (String × Int)).map Prod.fst) ∧
    (∀ r ∈ (list_handles ⟨108000, []⟩
        ⟨[⟨"registry-1.zip", 100, false, none, 0⟩], []⟩ 10).1.zavod,
      r.zip_fname ≠ "registry-1.zip") :=
  ⟨by decide, by simp,
   (C8_zavod_ttl_purge ⟨108000, []⟩
     ⟨[⟨"registry-1.zip", 100, false, none, 0⟩], []⟩ 10 "registry-1.zip"
     (by decide) (by simp)).2⟩

open DonorChe in
/-- C9: a not-modified conditional GET makes list_handles return the empty
sequence with the donor state untouched; a 200 response makes it return
exactly that one handle (state still untouched), and the validators
recorded from the response by fetch_xml_and_sig are the ones sent on the
next conditional request. -/
theorem C9_che_conditional_get (st : CheState) (limit : Nat)
    (hlimit : 1 ≤ limit) :
    (list_handles st .notModified limit = (st, [])) ∧
    (∀ e lm, (list_handles st (.ok e lm) limit).2 = [.ok e lm] ∧
      (list_handles st (.ok e lm) limit).1 = st) ∧
    (∀ e lm digest out,
      fetch_xml_and_sig st (.ok e lm) digest = some out →
      requestHeaders out.1 = (e, lm) ∧ out.1.xml_sha256 = some digest) := by
  refine ⟨rfl, fun e lm => ⟨rfl, rfl⟩, ?_⟩
  intro e lm digest out hout
  simp only [fetch_xml_and_sig, Option.some.injEq] at hout
  rw [← hout]
  exact ⟨rfl, rfl⟩

open DonorChe in
/-- Witness for C9 at a concrete state, responses and limit. -/
theorem C9_che_conditional_get_witness :
    (1 : Nat) ≤ 1 ∧
    list_handles ⟨"e0", "lm0", none⟩ .notModified 1 =
      (⟨"e0", "lm0", none⟩, []) ∧
    (fetch_xml_and_sig ⟨"e0", "lm0", none⟩ (.ok "e1" "lm1") [7] =
        some (⟨"e1", "lm1", some [7]⟩, [7]) →
      requestHeaders (⟨"e1", "lm1", some [7]⟩ : CheState) = ("e1", "lm1") ∧
      (⟨"e1", "lm1", some [7]⟩ : CheState).xml_sha256 = some [7]) :=
  ⟨by decide,
   (C9_che_conditional_get ⟨"e0", "lm0", none⟩ 1 (by decide)).1,
   fun h => (C9_che_conditional_get ⟨"e0", "lm0", none⟩ 1 (by decide)).2.2
     "e1" "lm1" [7] (⟨"e1", "lm1", some [7]⟩, [7]) h⟩
